import Mathlib

/-!
Verification development for the Biazzi order-management server
(`src/server.js`, with the PostgreSQL variant in `src/unnamed/part_000`).

The relational store (tables `orders`, `order_items`, `history`) is embedded
as a functional state `Store`: each order carries its own line items (the
`order_items` table is only ever read and written wholesale per `order_id`,
and rows cascade-delete with their order), `history` is the append-only list
of archival snapshots, and `nextId` models the autoincrementing primary key
(never reused).  Monetary and quantity values (SQL `REAL` / `NUMERIC`,
JavaScript numbers) are embedded as rationals.  JavaScript request-body
fields that may be absent are `Option`s; JavaScript string truthiness
(`x || y`, `!x`) is modelled explicitly: the empty string is falsy.
-/

/-- A line item, one row of `order_items` (without its id / order_id key:
items live inside their order). -/
structure LineItem where
  type : String
  qty : ℚ
  price : ℚ
  subtotal : ℚ
deriving DecidableEq, Repr

/-- An order, one row of `orders`, hydrated with its items
(as produced by `getOrderWithItems`). -/
structure Order where
  id : ℕ
  name : String
  phone : String
  total : ℚ
  payment : String
  status : String
  order_date : String
  created_at : String
  items : List LineItem
deriving DecidableEq, Repr

/-- One row of the append-only `history` table: the denormalized snapshot
inserted by `PUT /api/orders/:id` when a pending order settles.
`items_json` holds the serialized line items. -/
structure HistoryRecord where
  order_id : ℕ
  name : String
  phone : String
  total : ℚ
  payment : String
  status : String
  items_json : List LineItem
  created_at : String
  order_date : String
deriving DecidableEq, Repr

/-- The whole database state. -/
structure Store where
  orders : List Order
  history : List HistoryRecord
  nextId : ℕ
deriving DecidableEq, Repr

/-- A request body for `POST /api/orders` / `PUT /api/orders/:id`.
`none` models an absent JSON field (JavaScript `undefined`, bound as SQL
NULL); `some ""` is a present-but-empty string, which JavaScript treats as
falsy but SQL `COALESCE` treats as non-NULL. -/
structure Req where
  name : Option String
  phone : Option String
  items : Option (List LineItem)
  payment : Option String
  status : Option String
  order_date : Option String
deriving DecidableEq, Repr

/-- The caller-distinguishable failures of the mutating routes:
`validation` is the 400 response of `POST /api/orders`, `notFound` the 404
of `PUT` and `DELETE /api/orders/:id`. -/
inductive Err where
  | validation
  | notFound
deriving DecidableEq, Repr

/-- JavaScript string-option falsiness: `!x` for `x : string | undefined`. -/
def strFalsy : Option String → Bool
  | none => true
  | some s => s == ""

/-- The total recomputed on every write:
`items.reduce((s, i) => s + i.subtotal, 0)`. -/
def sumSubtotals (items : List LineItem) : ℚ :=
  (items.map (·.subtotal)).sum

/-- `SELECT * FROM orders WHERE id = ?` (hydrated). -/
def findOrder (s : Store) (id : ℕ) : Option Order :=
  s.orders.find? (fun o => o.id == id)

/-- The create route's rejection test:
`!name || !items?.length || !payment`. -/
def createInvalid (req : Req) : Bool :=
  strFalsy req.name
    || (match req.items with | none => true | some l => l.isEmpty)
    || strFalsy req.payment

/-- `const date = order_date || today` of the create route. -/
def effOrderDate (req : Req) (today : String) : String :=
  match req.order_date with
  | some d => if d == "" then today else d
  | none => today

/-- The row the create route inserts (with its items), hydrated:
status defaults to `pending`, `phone` to `phone || ''`, `total` is the sum
of the supplied subtotals. -/
def createdOrder (req : Req) (today now : String) (idv : ℕ) : Order :=
  { id := idv
    name := req.name.getD ("")
    phone := req.phone.getD ("")
    total := sumSubtotals (req.items.getD [])
    payment := req.payment.getD ("")
    status := "pending"
    order_date := effOrderDate req today
    created_at := now
    items := req.items.getD [] }

/-- `POST /api/orders`.  Validation (`!name || !items?.length || !payment`)
happens before any write; on success the order and its items are inserted
in one transaction.  `today` stands for
`new Date().toISOString().split('T')[0]` and `now` for the row's
`created_at` default. -/
def createOrder (req : Req) (today now : String) (s : Store) :
    Except Err (Store × Order) :=
  if createInvalid req then
    .error .validation
  else
    .ok ({ orders := s.orders ++ [createdOrder req today now s.nextId]
           history := s.history
           nextId := s.nextId + 1 },
         createdOrder req today now s.nextId)

/-- `const newStatus = status || existing.status` of the update route:
an absent or empty-string `status` falls back to the existing one. -/
def newStatusOf (req : Req) (existing : Order) : String :=
  match req.status with
  | some st => if st == "" then existing.status else st
  | none => existing.status

/-- The archival guard of `PUT /api/orders/:id`:
`(newStatus === 'paid' || newStatus === 'cancelled') && existing.status === 'pending'`. -/
def archives (req : Req) (existing : Order) : Prop :=
  (newStatusOf req existing = "paid" ∨ newStatusOf req existing = "cancelled")
    ∧ existing.status = "pending"

instance (req : Req) (existing : Order) : Decidable (archives req existing) := by
  unfold archives; infer_instance

/-- The history row inserted by the update route: a denormalized snapshot of
the post-update order, with `status` the effective new status. -/
def snapshotOf (updated : Order) (newStatus : String) : HistoryRecord :=
  { order_id := updated.id
    name := updated.name
    phone := updated.phone
    total := updated.total
    payment := updated.payment
    status := newStatus
    items_json := updated.items
    created_at := updated.created_at
    order_date := updated.order_date }

/-- The row as rewritten by the update route's `UPDATE ... COALESCE`
statement together with the conditional item replacement: an absent field
keeps the old value, a present field (even an empty string) overwrites;
`total` is recomputed from the supplied items when they are present (an
empty array is truthy in JavaScript, so `items: []` does replace) and kept
otherwise. -/
def mkUpdated (req : Req) (existing : Order) : Order :=
  { id := existing.id
    name := req.name.getD existing.name
    phone := req.phone.getD existing.phone
    total := match req.items with
      | some l => sumSubtotals l
      | none => existing.total
    payment := req.payment.getD existing.payment
    status := req.status.getD existing.status
    order_date := req.order_date.getD existing.order_date
    created_at := existing.created_at
    items := match req.items with
      | some l => l
      | none => existing.items }

/-- The store after a successful `PUT /api/orders/:id` on the row
`existing`: the row is rewritten in place, and one history snapshot of the
post-update order is appended exactly when the archival guard fires. -/
def updatedStore (s : Store) (id : ℕ) (req : Req) (existing : Order) :
    Store :=
  { orders := s.orders.map (fun o =>
      if o.id == id then mkUpdated req existing else o)
    history := s.history ++
      (if archives req existing then
        [snapshotOf (mkUpdated req existing) (newStatusOf req existing)]
      else [])
    nextId := s.nextId }

/-- `PUT /api/orders/:id`, the whole transaction: load the existing row
(404 if absent), apply the `COALESCE` update and item replacement, and
insert one history snapshot when a pending order settles. -/
def updateOrder (id : ℕ) (req : Req) (s : Store) :
    Except Err (Store × Order) :=
  match findOrder s id with
  | none => .error .notFound
  | some existing =>
    .ok (updatedStore s id req existing, mkUpdated req existing)

/-- `DELETE /api/orders/:id`: 404 when no row is deleted; cascades to the
order's items; never touches `history`. -/
def deleteOrder (id : ℕ) (s : Store) : Except Err Store :=
  if s.orders.any (fun o => o.id == id) then
    .ok { orders := s.orders.filter (fun o => !(o.id == id))
          history := s.history
          nextId := s.nextId }
  else .error .notFound

/-- One client mutation. -/
inductive Op where
  | create (req : Req) (today now : String)
  | update (id : ℕ) (req : Req)
  | delete (id : ℕ)
deriving Repr

/-- Executing one mutation: every route runs in one all-or-nothing
transaction, so a failed call leaves the store exactly as it was. -/
def stepOp (s : Store) : Op → Store
  | .create req today now =>
    match createOrder req today now s with
    | .ok (s', _) => s'
    | .error _ => s
  | .update id req =>
    match updateOrder id req s with
    | .ok (s', _) => s'
    | .error _ => s
  | .delete id =>
    match deleteOrder id s with
    | .ok s' => s'
    | .error _ => s

/-- Executing a sequence of mutations. -/
def runOps (s : Store) (ops : List Op) : Store :=
  ops.foldl stepOp s

/-- `GET /api/stats` revenue:
`SELECT COALESCE(SUM(total),0) FROM orders WHERE status='paid'`. -/
def revenue (s : Store) : ℚ :=
  ((s.orders.filter (fun o => o.status == "paid")).map (·.total)).sum

/-- `GET /api/stats` item totals, denotationally: the summed quantity the
`GROUP BY oi.type` query reports for type `t`
(`WHERE o.status != 'cancelled'`). -/
def itemTotals (s : Store) (t : String) : ℚ :=
  ((s.orders.filter (fun o => !(o.status == "cancelled"))).map
    (fun o => ((o.items.filter (fun i => i.type == t)).map (·.qty)).sum)).sum

/-- `GET /api/stats` payment totals, denotationally: the summed `total` the
`GROUP BY payment` query reports for method `p` (`WHERE status='paid'`). -/
def payTotals (s : Store) (p : String) : ℚ :=
  ((s.orders.filter (fun o => o.status == "paid" && o.payment == p)).map
    (·.total)).sum

/-- The history rows whose `order_id` is `i`. -/
def histFor (s : Store) (i : ℕ) : List HistoryRecord :=
  s.history.filter (fun r => r.order_id == i)

/-- Left-pad a digit string with zeros to length `f`. -/
def padLeftZeros (s : String) (f : ℕ) : String :=
  String.mk (List.replicate (f - s.length) '0') ++ s

/-- `toFixed` on a non-negative rational: the ECMA algorithm picks the
integer `n` with `n / 10^f` closest to `x`, ties to the larger `n`,
then renders `f` digits after the point (no point when `f = 0`). -/
def toFixedAbs (x : ℚ) (f : ℕ) : String :=
  let n : ℕ := (Rat.floor (x * (10 : ℚ) ^ f + 1 / 2)).toNat
  if f = 0 then toString n
  else toString (n / 10 ^ f) ++ "." ++ padLeftZeros (toString (n % 10 ^ f)) f

/-- JavaScript `x.toFixed(f)` (on our rational embedding of the number):
a negative number is rendered as the sign followed by `toFixed` of its
absolute value. -/
def toFixed (x : ℚ) (f : ℕ) : String :=
  if x < 0 then "-" ++ toFixedAbs (-x) f else toFixedAbs x f

/-- `const fmt = n => 'R$ ' + n.toFixed(2).replace('.', ',')` — the rendered
number contains exactly one dot, so replacing all occurrences is the same as
replacing the first. -/
def fmtBRL (n : ℚ) : String :=
  "R$ " ++ (toFixed n 2).replace (".") (",")

/-- The orders the daily summary is about:
`SELECT * FROM orders WHERE order_date = ? AND status != 'cancelled'`. -/
def dailyOrders (s : Store) (d : String) : List Order :=
  s.orders.filter (fun o => o.order_date == d && !(o.status == "cancelled"))

/-- `buildDailySummary(date)`.  `dateArg` is the function's optional
argument (`date || today`), `todayStr` stands for
`new Date().toISOString().split('T')[0]`, and `fmtDateBR` for the
`toLocaleDateString('pt-BR', ...)` rendering of the date (an external
runtime facility, passed in as an oracle).  Returns `none` when no
non-cancelled order has the given date.  The two item aggregates follow the
grouped query denotationally: `meatQty` is the summed quantity over types
`meat` and `ribs` combined, `chickenQty` the summed quantity of type
`chicken` (`find(...)?.qty || 0` yields exactly that sum, `0` when the
group is absent). -/
def buildDailySummary (s : Store) (dateArg : Option String)
    (todayStr : String) (fmtDateBR : String → String) : Option String :=
  let today := match dateArg with
    | some d => if d == "" then todayStr else d
    | none => todayStr
  let orders := dailyOrders s today
  if orders.isEmpty then none
  else
    let paid := orders.filter (fun o => o.status == "paid")
    let pending := orders.filter (fun o => o.status == "pending")
    let rev := (paid.map (·.total)).sum
    let meatQty := (orders.map (fun o =>
      ((o.items.filter (fun i => i.type == "meat" || i.type == "ribs")).map
        (·.qty)).sum)).sum
    let chickenQty := (orders.map (fun o =>
      ((o.items.filter (fun i => i.type == "chicken")).map (·.qty)).sum)).sum
    let lines : List (Option String) := [
      some ("🥩 *Biazzi Empório da Carne*"),
      some ("📅 Resumo de " ++ fmtDateBR today),
      some (""),
      some ("📦 *Pedidos*"),
      some ("  • Total: " ++ toString orders.length),
      some ("  • Pagos: " ++ toString paid.length),
      if pending.length > 0 then
        some ("  • Pendentes: " ++ toString pending.length) else none,
      some (""),
      some ("🍖 *Produtos Vendidos*"),
      if meatQty > 0 then
        some ("  • 🥩 Carne & Costela: " ++ toFixed meatQty 2 ++ " kg")
      else none,
      if chickenQty > 0 then
        some ("  • 🍗 Frango Assado: " ++ toFixed chickenQty 0 ++ " unidades")
      else none,
      some (""),
      some ("💰 *Receita do Dia: " ++ fmtBRL rev ++ "*"),
      some (""),
      some ("_Enviado automaticamente pelo app Biazzi_")
    ]
    some (String.intercalate ("\n") (lines.filterMap id))

/-- The two pieces of external configuration the dispatcher needs
(`process.env.WHATSAPP_PHONE`, `process.env.CALLMEBOT_APIKEY`); an unset
environment variable is `none`. -/
structure WhatsConfig where
  phone : Option String
  apiKey : Option String
deriving DecidableEq, Repr

/-- The CallMeBot URL built by `sendWhatsApp`; `encode` stands for
`encodeURIComponent`. -/
def whatsUrl (cfg : WhatsConfig) (encode : String → String)
    (message : String) : String :=
  "https://api.callmebot.com/whatsapp.php?phone=" ++ cfg.phone.getD ("")
    ++ "&text=" ++ encode message ++ "&apikey=" ++ cfg.apiKey.getD ("")

/-- `sendWhatsApp(message)`.  The transport (`fetch`) is an oracle: it may
fail (`.error`, a thrown network error) or report whether the response was
ok.  The result is `(delivered, networkCallMade)`: missing configuration
short-circuits to `(false, false)` without touching the transport, and a
transport error is caught and converted to `delivered = false`. -/
def sendWhatsApp (cfg : WhatsConfig) (encode : String → String)
    (transport : String → Except String Bool) (message : String) :
    Bool × Bool :=
  if strFalsy cfg.phone || strFalsy cfg.apiKey then (false, false)
  else
    match transport (whatsUrl cfg encode message) with
    | .ok ok => (ok, true)
    | .error _ => (false, true)

/-- The response of `POST /api/whatsapp/send-summary`. -/
inductive SummaryResp where
  | noOrders (message : String)
  | attempted (success : Bool) (preview : String)
deriving DecidableEq, Repr

/-- `POST /api/whatsapp/send-summary`: build the summary for the requested
date (defaulting to today), answer the no-orders sentinel when it is
absent, otherwise attempt dispatch and return the delivery flag together
with the preview text. -/
def sendSummaryEndpoint (s : Store) (dateArg : Option String)
    (todayStr : String) (fmtDateBR : String → String)
    (encode : String → String) (cfg : WhatsConfig)
    (transport : String → Except String Bool) : SummaryResp :=
  match buildDailySummary s dateArg todayStr fmtDateBR with
  | none => .noOrders ("Nenhum pedido encontrado para essa data.")
  | some msg => .attempted (sendWhatsApp cfg encode transport msg).1 msg

/-- The invariant that every stored order's `total` is the sum of its line
items' subtotals. -/
def totalsInv (s : Store) : Prop :=
  ∀ o ∈ s.orders, o.total = sumSubtotals o.items

/-- The invariant that every stored order's `total` is non-negative. -/
def totalsNonneg (s : Store) : Prop :=
  ∀ o ∈ s.orders, 0 ≤ o.total

/-- All line-item subtotals supplied by a mutation are non-negative. -/
def opSubtotalsNonneg : Op → Prop
  | .create req _ _ => ∀ l, req.items = some l → ∀ i ∈ l, 0 ≤ i.subtotal
  | .update _ req => ∀ l, req.items = some l → ∀ i ∈ l, 0 ≤ i.subtotal
  | .delete _ => True

/-- The specification's effective new status of an update:
`C.status` if provided, else `E.status` (unlike the code's
`status || existing.status`, a supplied empty string counts as provided
here). -/
def specEffStatus (req : Req) (existing : Order) : String :=
  req.status.getD existing.status

/-- The status strings of the data model's status enum. -/
def validStatus (st : String) : Prop :=
  st = "pending" ∨ st = "paid" ∨ st = "cancelled"

/-- The initial empty database (autoincrement keys start at 1). -/
def emptyStore : Store := { orders := [], history := [], nextId := 1 }

/-- A request body with no fields at all. -/
def blankReq : Req :=
  { name := none, phone := none, items := none, payment := none,
    status := none, order_date := none }

/-- A request body that only sets `status`. -/
def statusReq (st : String) : Req := { blankReq with status := some st }

/-- Fixture: one meat line item. -/
def meatItem : LineItem := { type := "meat", qty := 1, price := 10, subtotal := 10 }

/-- Fixture: a line item whose client-supplied subtotal is negative. -/
def negItem : LineItem := { type := "meat", qty := 1, price := 10, subtotal := -1 }

/-- Fixture: a valid create request. -/
def anaReq : Req :=
  { blankReq with
      name := some ("Ana")
      items := some [meatItem]
      payment := some ("pix") }

/-- Fixture: a create request carrying a negative subtotal (which the
create route accepts unchecked). -/
def negReq : Req :=
  { blankReq with
      name := some ("Bia")
      items := some [negItem]
      payment := some ("cash") }

/-- Fixture: create an order, settle it as paid, push its status back to
`pending`, and settle it as paid again. -/
def revertTrace : List Op :=
  [Op.create anaReq "2024-01-01" "t0",
   Op.update 1 (statusReq ("paid")),
   Op.update 1 (statusReq ("pending")),
   Op.update 1 (statusReq ("paid"))]

/-- Fixture: a request that replaces the item set by an empty one. -/
def emptyItemsReq : Req := { blankReq with items := some [] }

/-- Fixture: one pending order dated 2024-01-01. -/
def anaOrder : Order :=
  { id := 1
    name := "Ana"
    phone := ""
    total := 10
    payment := "pix"
    status := "pending"
    order_date := "2024-01-01"
    created_at := "t0"
    items := [meatItem] }

/-- Fixture: a store holding one pending order dated 2024-01-01. -/
def pendingStore : Store :=
  { orders := [anaOrder], history := [], nextId := 2 }

/-- Fixture: a store holding one paid order dated 2024-01-01. -/
def paidStore : Store :=
  { orders := [{ anaOrder with status := "paid" }], history := [], nextId := 2 }

/-- Specification-side daily revenue: the `paid` orders' totals of the
day, written as an indicator sum over all of the day's non-cancelled
orders (so that the contribution of each status is explicit). -/
def specDailyRevenue (s : Store) (d : String) : ℚ :=
  ((dailyOrders s d).map (fun o => if o.status = "paid" then o.total else 0)).sum

/-- Specification-side meat quantity: the day's summed quantity of type
`meat` plus the day's summed quantity of type `ribs`. -/
def specMeatQty (s : Store) (d : String) : ℚ :=
  ((dailyOrders s d).map (fun o =>
    ((o.items.filter (fun i => i.type == "meat")).map (·.qty)).sum)).sum
  + ((dailyOrders s d).map (fun o =>
      ((o.items.filter (fun i => i.type == "ribs")).map (·.qty)).sum)).sum

/-- Specification-side chicken quantity: the day's summed quantity of type
`chicken` (zero when absent). -/
def specChickenQty (s : Store) (d : String) : ℚ :=
  ((dailyOrders s d).map (fun o =>
    ((o.items.filter (fun i => i.type == "chicken")).map (·.qty)).sum)).sum

/-! ## Helper lemmas -/

theorem findOrder_mem {s : Store} {id : ℕ} {e : Order}
    (h : findOrder s id = some e) : e ∈ s.orders :=
  List.mem_of_find?_eq_some h

theorem findOrder_id {s : Store} {id : ℕ} {e : Order}
    (h : findOrder s id = some e) : e.id = id := by
  have := List.find?_some h
  simpa using this

theorem updateOrder_ok {s : Store} {id : ℕ} {e : Order} (req : Req)
    (hf : findOrder s id = some e) :
    updateOrder id req s = .ok (updatedStore s id req e, mkUpdated req e) := by
  simp [updateOrder, hf]

theorem updateOrder_error_iff (s : Store) (id : ℕ) (req : Req) :
    updateOrder id req s = .error .notFound ↔ findOrder s id = none := by
  cases hf : findOrder s id <;> simp [updateOrder, hf]

/-- Summing a mapped value over a Boolean filter is summing the
corresponding indicator over the whole list. -/
theorem sum_map_filter_toIte {α : Type} (l : List α) (p : α → Prop)
    [DecidablePred p] (pb : α → Bool) (hpb : ∀ a, pb a = true ↔ p a)
    (f : α → ℚ) :
    ((l.filter pb).map f).sum = (l.map (fun a => if p a then f a else 0)).sum := by
  induction l with
  | nil => rfl
  | cons a t ih =>
    by_cases h : p a
    · simp [List.filter_cons, (hpb a).mpr h, h, ih]
    · have hb : pb a = false := by
        rw [← Bool.not_eq_true, hpb]; exact h
      simp [List.filter_cons, hb, h, ih]

/-! ## C3: total always equals the sum of the current items' subtotals -/

/-- **C3.** For every order in the store after any successful create,
update or delete, the order's `total` equals the sum of the `subtotal`
fields of its current line items: create sets `total` to the sum of the
supplied items' subtotals, update recomputes it from the supplied items
when they are given and otherwise keeps both the total and the item set,
so the invariant is preserved by every mutation. -/
theorem total_equals_sum_of_subtotals (s : Store) (op : Op)
    (h : totalsInv s) : totalsInv (stepOp s op) := by
  cases op with
  | create req today now =>
    by_cases hv : createInvalid req
    · simpa [stepOp, createOrder, hv] using h
    · simp only [stepOp, createOrder, hv, if_neg, Bool.false_eq_true,
        not_false_iff, ite_false]
      intro o ho
      rcases List.mem_append.1 ho with h1 | h1
      · exact h o h1
      · rcases List.mem_singleton.1 h1 with rfl
        simp [createdOrder, totalsInv]
  | update id req =>
    cases hf : findOrder s id with
    | none =>
      simpa [stepOp, updateOrder, hf] using h
    | some e =>
      simp only [stepOp, updateOrder_ok req hf]
      intro o ho
      rcases List.mem_map.1 ho with ⟨a, ha, rfl⟩
      by_cases hid : (a.id == id) = true
      · simp only [hid, if_true]
        cases hitems : req.items with
        | some l => simp [mkUpdated, hitems]
        | none =>
          simpa [mkUpdated, hitems] using h e (findOrder_mem hf)
      · simpa [hid] using h a ha
  | delete id =>
    by_cases hd : s.orders.any (fun o => o.id == id)
    · simp only [stepOp, deleteOrder, hd, if_true]
      intro o ho
      exact h o (List.mem_of_mem_filter ho)
    · simpa [stepOp, deleteOrder, hd] using h

/-- Witness for C3: the invariant holds in the empty store and after a
concrete create. -/
theorem total_equals_sum_of_subtotals_w :
    totalsInv emptyStore
    ∧ totalsInv (stepOp emptyStore (Op.create anaReq "2024-01-01" "t0")) := by
  have h0 : totalsInv emptyStore := by
    intro o ho
    simp [emptyStore] at ho
  exact ⟨h0, total_equals_sum_of_subtotals emptyStore _ h0⟩

/-! ## C4: status scope of revenue, item totals and payment totals -/

/-- **C4.** `revenue` sums `total` over exactly the `paid` orders (a
`pending` or `cancelled` order contributes `0`); `itemTotals` sums line-item
quantities by type over all orders except `cancelled` ones (so `pending`
orders do contribute); `payTotals` sums `total` by payment method over
`paid` orders only.  Each aggregate is rewritten as an indicator sum over
all orders, which makes the contribution of every status explicit. -/
theorem stats_status_scope (s : Store) :
    revenue s
      = (s.orders.map (fun o => if o.status = "paid" then o.total else 0)).sum
    ∧ (∀ t, itemTotals s t
        = (s.orders.map (fun o => if o.status = "cancelled" then 0
            else ((o.items.filter (fun i => i.type == t)).map (·.qty)).sum)).sum)
    ∧ (∀ p, payTotals s p
        = (s.orders.map (fun o =>
            if o.status = "paid" ∧ o.payment = p then o.total else 0)).sum) := by
  refine ⟨?_, ?_, ?_⟩
  · exact sum_map_filter_toIte s.orders (fun o => o.status = "paid")
      (fun o => o.status == "paid") (fun o => by simp) (·.total)
  · intro t
    have := sum_map_filter_toIte s.orders (fun o => ¬ o.status = "cancelled")
      (fun o => !(o.status == "cancelled")) (fun o => by simp)
      (fun o => ((o.items.filter (fun i => i.type == t)).map (·.qty)).sum)
    rw [itemTotals, this]
    refine congrArg List.sum (List.map_congr_left fun o _ => ?_)
    by_cases h : o.status = "cancelled" <;> simp [h]
  · intro p
    exact sum_map_filter_toIte s.orders
      (fun o => o.status = "paid" ∧ o.payment = p)
      (fun o => o.status == "paid" && o.payment == p)
      (fun o => by simp) (·.total)

/-! ## C9: non-negativity of totals -/

/-- **C9, counterexample.** The claim "every reachable order's total is
non-negative" is false: the create route never validates the
client-supplied `subtotal` fields, so creating an order whose single item
carries `subtotal = -1` stores an order with `total = -1 < 0`. -/
theorem negative_total_reachable :
    (stepOp emptyStore (Op.create negReq "2024-01-01" "t0")).orders.map (·.total)
      = [-1]
    ∧ ¬ totalsNonneg (stepOp emptyStore (Op.create negReq "2024-01-01" "t0")) := by
  have hord : (stepOp emptyStore (Op.create negReq "2024-01-01" "t0")).orders.map (·.total) = [-1] := by
    simp [stepOp, createOrder, createInvalid, strFalsy, negReq, blankReq,
      emptyStore, createdOrder, sumSubtotals, negItem, effOrderDate]
  refine ⟨hord, fun hnn => ?_⟩
  have hmem : ∃ o ∈ (stepOp emptyStore (Op.create negReq "2024-01-01" "t0")).orders,
      o.total = -1 := by
    rcases List.exists_of_mem_map (l := (stepOp emptyStore (Op.create negReq "2024-01-01" "t0")).orders)
      (b := (-1 : ℚ)) (f := (·.total)) (by rw [hord]; exact List.mem_singleton.2 rfl) with ⟨o, ho, h1⟩
    exact ⟨o, ho, h1⟩
  rcases hmem with ⟨o, ho, h1⟩
  have := hnn o ho
  rw [h1] at this
  norm_num at this

/-- **C9, amended.** If every mutation only ever supplies line items with
non-negative subtotals, then every reachable order's total is
non-negative: create and update compute `total` as a sum of the supplied
subtotals (or keep the previous total), so non-negativity is preserved by
every operation. -/
theorem totals_nonneg_of_nonneg_subtotals (s : Store) (op : Op)
    (h : totalsNonneg s) (hop : opSubtotalsNonneg op) :
    totalsNonneg (stepOp s op) := by
  have hsum : ∀ (l : List LineItem), (∀ i ∈ l, 0 ≤ i.subtotal) →
      0 ≤ sumSubtotals l := by
    intro l hl
    refine List.sum_nonneg ?_
    intro x hx
    rcases List.exists_of_mem_map hx with ⟨i, hi, rfl⟩
    exact hl i hi
  cases op with
  | create req today now =>
    by_cases hv : createInvalid req
    · simpa [stepOp, createOrder, hv] using h
    · simp only [stepOp, createOrder, hv, Bool.false_eq_true, not_false_iff,
        ite_false]
      intro o ho
      rcases List.mem_append.1 ho with h1 | h1
      · exact h o h1
      · rcases List.mem_singleton.1 h1 with rfl
        simp only [createdOrder]
        cases hitems : req.items with
        | some l => exact hsum l (hop l hitems)
        | none => simp [sumSubtotals]
  | update id req =>
    cases hf : findOrder s id with
    | none => simpa [stepOp, updateOrder, hf] using h
    | some e =>
      simp only [stepOp, updateOrder_ok req hf]
      intro o ho
      rcases List.mem_map.1 ho with ⟨a, ha, rfl⟩
      by_cases hid : (a.id == id) = true
      · simp only [hid, if_true]
        cases hitems : req.items with
        | some l =>
          simpa [mkUpdated, hitems] using hsum l (hop l hitems)
        | none =>
          simpa [mkUpdated, hitems] using h e (findOrder_mem hf)
      · simpa [hid] using h a ha
  | delete id =>
    by_cases hd : s.orders.any (fun o => o.id == id)
    · simp only [stepOp, deleteOrder, hd, if_true]
      intro o ho
      exact h o (List.mem_of_mem_filter ho)
    · simpa [stepOp, deleteOrder, hd] using h

/-- Witness for the amended C9: the hypotheses are satisfiable on a
concrete store and mutation. -/
theorem totals_nonneg_of_nonneg_subtotals_w :
    totalsNonneg emptyStore
    ∧ opSubtotalsNonneg (Op.create anaReq "2024-01-01" "t0")
    ∧ totalsNonneg (stepOp emptyStore (Op.create anaReq "2024-01-01" "t0")) := by
  have h0 : totalsNonneg emptyStore := by
    intro o ho
    simp [emptyStore] at ho
  have h1 : opSubtotalsNonneg (Op.create anaReq "2024-01-01" "t0") := by
    intro l hl i hi
    simp only [anaReq, blankReq] at hl
    cases hl
    rcases List.mem_singleton.1 hi with rfl
    simp [meatItem]
  exact ⟨h0, h1, totals_nonneg_of_nonneg_subtotals emptyStore _ h0 h1⟩

/-! ## C10: an update may empty the item list, a create may not -/

/-- **C10.** An empty `items` array is truthy in JavaScript, so the update
route replaces the item set by it: for every existing order, an update
supplying `items = []` succeeds, deletes every line item and sets the
total to `0`, while the create route rejects `items = []` with a
validation failure (`!items?.length`). -/
theorem empty_items_update_clears (s : Store) (id : ℕ) (req : Req)
    (today now : String) (e : Order)
    (hreq : req.items = some [])
    (hf : findOrder s id = some e) :
    createOrder req today now s = .error .validation
    ∧ updateOrder id req s = .ok (updatedStore s id req e, mkUpdated req e)
    ∧ (mkUpdated req e).items = []
    ∧ (mkUpdated req e).total = 0 := by
  refine ⟨?_, updateOrder_ok req hf, ?_, ?_⟩
  · have : createInvalid req = true := by
      simp [createInvalid, hreq]
    simp [createOrder, this]
  · simp [mkUpdated, hreq]
  · simp [mkUpdated, hreq, sumSubtotals]

/-- Witness for C10 at a concrete store and request. -/
theorem empty_items_update_clears_w :
    emptyItemsReq.items = some []
    ∧ findOrder pendingStore 1 = some anaOrder
    ∧ (createOrder emptyItemsReq "2024-01-02" "t1" pendingStore
        = .error .validation
      ∧ updateOrder 1 emptyItemsReq pendingStore
        = .ok (updatedStore pendingStore 1 emptyItemsReq anaOrder,
               mkUpdated emptyItemsReq anaOrder)
      ∧ (mkUpdated emptyItemsReq anaOrder).items = []
      ∧ (mkUpdated emptyItemsReq anaOrder).total = 0) := by
  refine ⟨rfl, ?_, ?_⟩
  · simp [findOrder, pendingStore, anaOrder]
  · exact empty_items_update_clears pendingStore 1 emptyItemsReq
      "2024-01-02" "t1" anaOrder rfl (by simp [findOrder, pendingStore, anaOrder])

/-! ## C8: validation and not-found error behaviour -/

/-- The create route's rejection test, characterized: it fires exactly when
name, items or payment is missing or empty. -/
theorem createInvalid_iff (req : Req) :
    createInvalid req = true ↔
      (req.name = none ∨ req.name = some "" ∨ req.items = none
        ∨ req.items = some [] ∨ req.payment = none ∨ req.payment = some "") := by
  cases hn : req.name <;> cases hi : req.items <;> cases hp : req.payment <;>
    simp [createInvalid, strFalsy, hn, hi, hp, List.isEmpty_iff, or_assoc]

/-- `DELETE` finds no row exactly when no order has the id. -/
theorem deleteOrder_error_iff (s : Store) (id : ℕ) :
    deleteOrder id s = .error .notFound ↔ findOrder s id = none := by
  by_cases hd : s.orders.any (fun o => o.id == id) = true
  · simp only [deleteOrder, hd, if_true]
    constructor
    · intro h; cases h
    · intro h
      rcases List.any_eq_true.1 hd with ⟨o, ho, hid⟩
      rw [findOrder, List.find?_eq_none] at h
      exact absurd hid (by simpa using h o ho)
  · have hd' : s.orders.any (fun o => o.id == id) = false :=
      Bool.eq_false_iff.2 hd
    simp only [deleteOrder, hd', Bool.false_eq_true, if_false, true_iff]
    rw [findOrder, List.find?_eq_none]
    intro a ha
    simpa using List.any_eq_false.1 hd' a ha

/-- **C8.** Create fails with a `ValidationError` exactly when name is
empty or missing, the item list is empty or missing, or payment is empty
or missing, and a failed create persists nothing; update and delete on an
id that is not in the store fail with a `NotFoundError` (the only error
they produce, distinguishable from a validation failure) and leave the
store unchanged. -/
theorem error_taxonomy (s : Store) (req : Req) (today now : String)
    (id : ℕ) :
    (createOrder req today now s = .error .validation ↔
      (req.name = none ∨ req.name = some "" ∨ req.items = none
        ∨ req.items = some [] ∨ req.payment = none ∨ req.payment = some ""))
    ∧ (∀ e, createOrder req today now s = .error e → e = .validation)
    ∧ (createOrder req today now s = .error .validation →
        stepOp s (Op.create req today now) = s)
    ∧ (updateOrder id req s = .error .notFound ↔ findOrder s id = none)
    ∧ (∀ e, updateOrder id req s = .error e → e = .notFound)
    ∧ (findOrder s id = none → stepOp s (Op.update id req) = s)
    ∧ (deleteOrder id s = .error .notFound ↔ findOrder s id = none)
    ∧ (∀ e, deleteOrder id s = .error e → e = .notFound)
    ∧ (findOrder s id = none → stepOp s (Op.delete id) = s)
    ∧ Err.validation ≠ Err.notFound := by
  refine ⟨?_, ?_, ?_, updateOrder_error_iff s id req, ?_, ?_, deleteOrder_error_iff s id, ?_, ?_, by simp⟩
  · rw [← createInvalid_iff]
    by_cases hv : createInvalid req <;> simp [createOrder, hv]
  · intro e he
    by_cases hv : createInvalid req <;> simp [createOrder, hv] at he
    exact he.symm
  · intro he
    by_cases hv : createInvalid req
    · simp [stepOp, createOrder, hv]
    · simp [createOrder, hv] at he
  · intro e he
    cases hf : findOrder s id <;> simp [updateOrder, hf] at he
    exact he.symm
  · intro hf
    have := (updateOrder_error_iff s id req).2 hf
    simp [stepOp, this]
  · intro e he
    by_cases hd : s.orders.any (fun o => o.id == id) = true <;>
      simp [deleteOrder, hd] at he
    exact he.symm
  · intro hf
    have := (deleteOrder_error_iff s id).2 hf
    simp [stepOp, this]

/-- Witness for C8: a request with everything missing is rejected with a
validation error, and update/delete on the empty store report not-found. -/
theorem error_taxonomy_w :
    createOrder blankReq "2024-01-01" "t0" emptyStore = .error .validation
    ∧ updateOrder 1 blankReq emptyStore = .error .notFound
    ∧ deleteOrder 1 emptyStore = .error .notFound := by
  refine ⟨(error_taxonomy emptyStore blankReq "2024-01-01" "t0" 1).1.mpr
    (Or.inl rfl), ?_, ?_⟩
  · exact (error_taxonomy emptyStore blankReq "2024-01-01" "t0" 1).2.2.2.1.mpr
      (by simp [findOrder, emptyStore])
  · exact (error_taxonomy emptyStore blankReq "2024-01-01" "t0" 1).2.2.2.2.2.2.1.mpr
      (by simp [findOrder, emptyStore])

/-! ## C6: partial-update (frame) semantics -/

/-- **C6.** For every update of an existing order, every field among
name, phone, payment, status and order_date that is not supplied retains
its previous value (`COALESCE`); when `items` is not supplied the item set
and the total are left unchanged; when `items` is supplied the previous
item set is wholly replaced by the supplied one (delete-all-then-reinsert);
and only the row with the updated id is touched. -/
theorem partial_update_frame (s : Store) (id : ℕ) (req : Req) (e : Order)
    (hf : findOrder s id = some e) :
    updateOrder id req s = .ok (updatedStore s id req e, mkUpdated req e)
    ∧ (req.name = none → (mkUpdated req e).name = e.name)
    ∧ (req.phone = none → (mkUpdated req e).phone = e.phone)
    ∧ (req.payment = none → (mkUpdated req e).payment = e.payment)
    ∧ (req.status = none → (mkUpdated req e).status = e.status)
    ∧ (req.order_date = none → (mkUpdated req e).order_date = e.order_date)
    ∧ (req.items = none →
        (mkUpdated req e).items = e.items ∧ (mkUpdated req e).total = e.total)
    ∧ (∀ l, req.items = some l →
        (mkUpdated req e).items = l
        ∧ (mkUpdated req e).total = sumSubtotals l)
    ∧ (updatedStore s id req e).orders
        = s.orders.map (fun o => if o.id == id then mkUpdated req e else o) := by
  refine ⟨updateOrder_ok req hf, ?_, ?_, ?_, ?_, ?_, ?_, ?_, rfl⟩
  · intro h; simp [mkUpdated, h]
  · intro h; simp [mkUpdated, h]
  · intro h; simp [mkUpdated, h]
  · intro h; simp [mkUpdated, h]
  · intro h; simp [mkUpdated, h]
  · intro h; exact ⟨by simp [mkUpdated, h], by simp [mkUpdated, h]⟩
  · intro l h; exact ⟨by simp [mkUpdated, h], by simp [mkUpdated, h]⟩

/-- Witness for C6: an update that supplies nothing at all leaves every
field of the concrete pending order unchanged. -/
theorem partial_update_frame_w :
    findOrder pendingStore 1 = some anaOrder
    ∧ updateOrder 1 blankReq pendingStore
        = .ok (updatedStore pendingStore 1 blankReq anaOrder,
               mkUpdated blankReq anaOrder)
    ∧ mkUpdated blankReq anaOrder = anaOrder := by
  have hf : findOrder pendingStore 1 = some anaOrder := by
    simp [findOrder, pendingStore, anaOrder]
  refine ⟨hf, (partial_update_frame pendingStore 1 blankReq anaOrder hf).1, ?_⟩
  simp [mkUpdated, blankReq]

/-! ## C2: the archival rule of the update route -/

/-- The code's archival guard (`status || existing.status` terminal, and
pre-status `pending`) coincides with the specification's condition
(pre-status `pending` and `C.status` if provided else `E.status` terminal):
the two effective statuses only differ when the request carries an empty
string, which is terminal for neither. -/
theorem archives_iff_spec (req : Req) (e : Order) :
    archives req e ↔
      (e.status = "pending"
        ∧ (specEffStatus req e = "paid" ∨ specEffStatus req e = "cancelled")) := by
  cases hst : req.status with
  | none =>
    constructor
    · rintro ⟨ht, hp⟩
      rw [newStatusOf, hst] at ht
      rw [hp] at ht
      rcases ht with h | h <;> simp at h
    · rintro ⟨hp, ht⟩
      rw [specEffStatus, hst, Option.getD_none, hp] at ht
      rcases ht with h | h <;> simp at h
  | some st =>
    by_cases hempty : st = ""
    · subst hempty
      constructor
      · rintro ⟨ht, hp⟩
        rw [newStatusOf, hst] at ht
        simp only [if_pos rfl] at ht
        rw [hp] at ht
        rcases ht with h | h <;> simp at h
      · rintro ⟨hp, ht⟩
        rw [specEffStatus, hst, Option.getD_some] at ht
        rcases ht with h | h <;> simp at h
    · have hns : newStatusOf req e = st := by
        rw [newStatusOf, hst]
        simp [hempty]
      have hse : specEffStatus req e = st := by
        rw [specEffStatus, hst, Option.getD_some]
      rw [archives, hns, hse, and_comm]

/-- When the guard fires, the request carried a non-empty terminal status,
so the row status written by `COALESCE`, the code's effective status and
the specification's effective status all agree. -/
theorem archives_status_agree (req : Req) (e : Order) (h : archives req e) :
    (mkUpdated req e).status = specEffStatus req e
    ∧ newStatusOf req e = specEffStatus req e := by
  rcases h with ⟨ht, hp⟩
  cases hst : req.status with
  | none =>
    rw [newStatusOf, hst] at ht
    rw [hp] at ht
    rcases ht with h | h <;> simp at h
  | some st =>
    by_cases hempty : st = ""
    · subst hempty
      rw [newStatusOf, hst] at ht
      simp only [if_pos rfl] at ht
      rw [hp] at ht
      rcases ht with h | h <;> simp at h
    · constructor
      · simp [mkUpdated, specEffStatus, hst]
      · rw [newStatusOf, specEffStatus, hst]
        simp [hempty]

/-- **C2.** For every update of an existing order `e`, one history record
is written if and only if `e`'s pre-change status is exactly `pending` and
the effective new status (the requested one if provided, else `e`'s) is
`paid` or `cancelled`; the record is the snapshot of the post-change order
(name, phone, total, payment, effective status, items, order_date),
appended by the very same transaction (`updatedStore`) that applies the
field and item changes; in particular an update with `status` unspecified
never writes a record. -/
theorem history_snapshot_iff_pending_settles (s : Store) (id : ℕ)
    (req : Req) (e : Order) (hf : findOrder s id = some e) :
    updateOrder id req s = .ok (updatedStore s id req e, mkUpdated req e)
    ∧ ((updatedStore s id req e).history
        = s.history
          ++ [snapshotOf (mkUpdated req e) (newStatusOf req e)] ↔
        (e.status = "pending"
          ∧ (specEffStatus req e = "paid" ∨ specEffStatus req e = "cancelled")))
    ∧ (¬ (e.status = "pending"
          ∧ (specEffStatus req e = "paid" ∨ specEffStatus req e = "cancelled")) →
        (updatedStore s id req e).history = s.history)
    ∧ ((e.status = "pending"
          ∧ (specEffStatus req e = "paid" ∨ specEffStatus req e = "cancelled")) →
        snapshotOf (mkUpdated req e) (newStatusOf req e)
          = { order_id := (mkUpdated req e).id
              name := (mkUpdated req e).name
              phone := (mkUpdated req e).phone
              total := (mkUpdated req e).total
              payment := (mkUpdated req e).payment
              status := specEffStatus req e
              items_json := (mkUpdated req e).items
              created_at := (mkUpdated req e).created_at
              order_date := (mkUpdated req e).order_date }
        ∧ (mkUpdated req e).status = specEffStatus req e)
    ∧ (req.status = none → (updatedStore s id req e).history = s.history) := by
  refine ⟨updateOrder_ok req hf, ?_, ?_, ?_, ?_⟩
  · constructor
    · intro hh
      by_cases ha : archives req e
      · exact (archives_iff_spec req e).1 ha
      · rw [updatedStore] at hh
        simp only [ha, if_neg, not_false_iff, List.append_nil] at hh
        have := congrArg List.length hh
        simp at this
    · intro hcond
      have ha := (archives_iff_spec req e).2 hcond
      simp [updatedStore, ha]
  · intro hcond
    have ha : ¬ archives req e := fun h => hcond ((archives_iff_spec req e).1 h)
    simp [updatedStore, ha]
  · intro hcond
    have ha := (archives_iff_spec req e).2 hcond
    obtain ⟨h1, h2⟩ := archives_status_agree req e ha
    exact ⟨by rw [snapshotOf, h2], h1⟩
  · intro hst
    have ha : ¬ archives req e := by
      rintro ⟨ht, hp⟩
      rw [newStatusOf, hst] at ht
      rw [hp] at ht
      rcases ht with h | h <;> simp at h
    simp [updatedStore, ha]

/-- Witness for C2: settling the concrete pending order as paid appends
exactly its snapshot. -/
theorem history_snapshot_iff_pending_settles_w :
    findOrder pendingStore 1 = some anaOrder
    ∧ (updatedStore pendingStore 1 (statusReq ("paid")) anaOrder).history
        = pendingStore.history
          ++ [snapshotOf (mkUpdated (statusReq ("paid")) anaOrder)
                (newStatusOf (statusReq ("paid")) anaOrder)] := by
  have hf : findOrder pendingStore 1 = some anaOrder := by
    simp [findOrder, pendingStore, anaOrder]
  refine ⟨hf, ?_⟩
  exact (history_snapshot_iff_pending_settles pendingStore 1
      (statusReq ("paid")) anaOrder hf).2.1.mpr
    ⟨rfl, Or.inl rfl⟩

/-! ## C1: at most one history record per order -/

/-- **C1, counterexample.** The claim "at most one HistoryRecord is ever
created for an order over any sequence of operations" is false: the update
route lets a client set the status back to `pending` (the guard only
compares the pre-change status against `pending`), so the trace
create → update to `paid` → update to `pending` → update to `paid`
archives the same order twice. -/
theorem archival_twice_after_status_revert :
    (runOps emptyStore revertTrace).history.map (·.order_id) = [1, 1]
    ∧ (histFor (runOps emptyStore revertTrace) 1).length = 2 := by
  exact ⟨rfl, rfl⟩

/-- One mutation neither archives an order that is not `pending` (as long
as the mutation does not set its status to `pending`) nor makes it
`pending`; the bound `i < nextId` rules out a later create reusing the id. -/
theorem stepOp_nonpending_frame (s : Store) (i : ℕ) (op : Op)
    (hterm : ∀ o ∈ s.orders, o.id = i → o.status ≠ "pending")
    (hlt : i < s.nextId)
    (hop : ∀ id req, op = Op.update id req → id = i →
      req.status ≠ some ("pending")) :
    histFor (stepOp s op) i = histFor s i
    ∧ (∀ o ∈ (stepOp s op).orders, o.id = i → o.status ≠ "pending")
    ∧ i < (stepOp s op).nextId := by
  cases op with
  | create req today now =>
    by_cases hv : createInvalid req
    · simp only [stepOp, createOrder, hv, if_true]
      exact ⟨trivial, hterm, hlt⟩
    · simp only [stepOp, createOrder, hv, Bool.false_eq_true, not_false_iff,
        ite_false]
      refine ⟨rfl, ?_, Nat.lt_succ_of_lt hlt⟩
      intro o ho hoi
      rcases List.mem_append.1 ho with h1 | h1
      · exact hterm o h1 hoi
      · rcases List.mem_singleton.1 h1 with rfl
        simp only [createdOrder] at hoi
        omega
  | update id req =>
    cases hf : findOrder s id with
    | none =>
      simp only [stepOp, updateOrder, hf]
      exact ⟨trivial, hterm, hlt⟩
    | some e =>
      simp only [stepOp, updateOrder_ok req hf]
      by_cases hid : id = i
      · subst hid
        have hes : e.status ≠ "pending" :=
          hterm e (findOrder_mem hf) (findOrder_id hf)
        have ha : ¬ archives req e := fun h => hes h.2
        refine ⟨by simp [histFor, updatedStore, ha], ?_, hlt⟩
        intro o ho hoi
        rcases List.mem_map.1 ho with ⟨a, ha2, rfl⟩
        by_cases haid : (a.id == id) = true
        · simp only [haid, if_true] at hoi ⊢
          have hreq := hop id req rfl rfl
          cases hstq : req.status with
          | none => simpa [mkUpdated, hstq] using hes
          | some st =>
            have hne : st ≠ "pending" := fun h => hreq (by rw [hstq, h])
            simpa [mkUpdated, hstq] using hne
        · simp only [haid, Bool.false_eq_true, if_false] at hoi ⊢
          exact absurd (beq_iff_eq.2 hoi) haid
      · have heid : e.id = id := findOrder_id hf
        refine ⟨?_, ?_, hlt⟩
        · by_cases ha : archives req e
          · simp only [histFor, updatedStore, ha, if_true, List.filter_append]
            have hrec :
                ((snapshotOf (mkUpdated req e) (newStatusOf req e)).order_id
                  == i) = false := by
              simp [snapshotOf, mkUpdated, heid, hid]
            simp [List.filter_cons, hrec]
          · simp [histFor, updatedStore, ha]
        · intro o ho hoi
          rcases List.mem_map.1 ho with ⟨a, ha2, rfl⟩
          by_cases haid : (a.id == id) = true
          · simp only [haid, if_true] at hoi
            simp only [mkUpdated, heid] at hoi
            exact absurd hoi hid
          · simp only [haid, Bool.false_eq_true, if_false] at hoi ⊢
            exact hterm a ha2 hoi
  | delete id =>
    by_cases hd : s.orders.any (fun o => o.id == id) = true
    · simp only [stepOp, deleteOrder, hd, if_true]
      refine ⟨rfl, ?_, hlt⟩
      intro o ho hoi
      exact hterm o (List.mem_of_mem_filter ho) hoi
    · have hd' : s.orders.any (fun o => o.id == id) = false :=
        Bool.eq_false_iff.2 hd
      simp only [stepOp, deleteOrder, hd', Bool.false_eq_true, if_false]
      exact ⟨trivial, hterm, hlt⟩

/-- Iterating `stepOp_nonpending_frame` over a trace. -/
theorem runOps_nonpending_frame (ops : List Op) :
    ∀ (s : Store) (i : ℕ),
      (∀ o ∈ s.orders, o.id = i → o.status ≠ "pending") →
      i < s.nextId →
      (∀ op ∈ ops, ∀ id req, op = Op.update id req → id = i →
        req.status ≠ some ("pending")) →
      histFor (runOps s ops) i = histFor s i := by
  induction ops with
  | nil =>
    intro s i _ _ _
    rfl
  | cons op rest ih =>
    intro s i hterm hlt hnoreset
    obtain ⟨h1, h2, h3⟩ := stepOp_nonpending_frame s i op hterm hlt
      (fun id req hop hid => hnoreset op (List.mem_cons_self op rest) id req hop hid)
    have hrest := fun op' hmem => hnoreset op' (List.mem_cons_of_mem op hmem)
    show histFor (runOps (stepOp s op) rest) i = histFor s i
    rw [ih (stepOp s op) i h2 h3 hrest, h1]

/-- **C1, amended.** A history record is created only by an update whose
pre-change status is `pending` and whose effective new status is `paid` or
`cancelled`, and each such update appends exactly one record; consequently
an order that is already terminal accrues no further record over any
sequence of operations, as long as no update resets its status to
`pending`.  (As `archival_twice_after_status_revert` shows, resetting the
status to `pending` re-arms archival, so "at most one record ever" does
not hold unconditionally.) -/
theorem archival_once_per_pending_sojourn (s : Store) (i : ℕ)
    (ops : List Op)
    (hterm : ∀ o ∈ s.orders, o.id = i → o.status ≠ "pending")
    (hlt : i < s.nextId)
    (hnoreset : ∀ op ∈ ops, ∀ id req, op = Op.update id req → id = i →
      req.status ≠ some ("pending")) :
    histFor (runOps s ops) i = histFor s i
    ∧ (∀ (id : ℕ) (req : Req),
        (stepOp s (Op.update id req)).history = s.history
        ∨ (∃ e, findOrder s id = some e ∧ e.status = "pending"
            ∧ (newStatusOf req e = "paid" ∨ newStatusOf req e = "cancelled")
            ∧ (stepOp s (Op.update id req)).history
                = s.history
                  ++ [snapshotOf (mkUpdated req e) (newStatusOf req e)])) := by
  refine ⟨runOps_nonpending_frame ops s i hterm hlt hnoreset, ?_⟩
  intro id req
  cases hf : findOrder s id with
  | none =>
    left
    simp [stepOp, updateOrder, hf]
  | some e =>
    by_cases ha : archives req e
    · right
      exact ⟨e, rfl, ha.2, ha.1, by
        simp [stepOp, updateOrder_ok req hf, updatedStore, ha]⟩
    · left
      simp [stepOp, updateOrder_ok req hf, updatedStore, ha]

/-- Witness for the amended C1: a concrete paid order, updated to
`cancelled`, accrues no history record. -/
theorem archival_once_per_pending_sojourn_w :
    (∀ o ∈ paidStore.orders, o.id = 1 → o.status ≠ "pending")
    ∧ 1 < paidStore.nextId
    ∧ histFor (runOps paidStore [Op.update 1 (statusReq ("cancelled"))]) 1
        = histFor paidStore 1 := by
  have hterm : ∀ o ∈ paidStore.orders, o.id = 1 → o.status ≠ "pending" := by
    intro o ho _
    simp only [paidStore] at ho
    rcases List.mem_singleton.1 ho with rfl
    simp [anaOrder]
  have hlt : 1 < paidStore.nextId := by
    simp [paidStore]
  refine ⟨hterm, hlt, ?_⟩
  exact (archival_once_per_pending_sojourn paidStore 1
    [Op.update 1 (statusReq ("cancelled"))] hterm hlt
    (by
      intro op hmem id req hop hid
      rcases List.mem_singleton.1 hmem with rfl
      cases hop
      simp [statusReq, blankReq])).1

/-! ## C7: the dispatcher never raises -/

/-- **C7.** The dispatcher's send never propagates a failure: with the
recipient phone or the API key missing (or empty) in the environment it
makes no network call and reports `false`; a transport error is caught and
converted to `false`; and the manual send-summary endpoint still returns
the computed preview text alongside `delivered = false` in that failure
case.  (The scheduled path calls the same `sendWhatsApp`, so the same
facts cover it.) -/
theorem dispatcher_never_raises (cfg : WhatsConfig)
    (encode : String → String) (transport : String → Except String Bool)
    (msg : String) (s : Store) (dateArg : Option String) (todayStr : String)
    (fmtDateBR : String → String)
    (hmiss : (strFalsy cfg.phone || strFalsy cfg.apiKey) = true) :
    sendWhatsApp cfg encode transport msg = (false, false)
    ∧ (∀ (cfg' : WhatsConfig) (m : String) (err : String),
        transport (whatsUrl cfg' encode m) = .error err →
        (sendWhatsApp cfg' encode transport m).1 = false)
    ∧ (∀ m, buildDailySummary s dateArg todayStr fmtDateBR = some m →
        sendSummaryEndpoint s dateArg todayStr fmtDateBR encode cfg transport
          = .attempted false m)
    ∧ (buildDailySummary s dateArg todayStr fmtDateBR = none →
        sendSummaryEndpoint s dateArg todayStr fmtDateBR encode cfg transport
          = .noOrders ("Nenhum pedido encontrado para essa data.")) := by
  refine ⟨by simp [sendWhatsApp, hmiss], ?_, ?_, ?_⟩
  · intro cfg' m err herr
    by_cases hm : (strFalsy cfg'.phone || strFalsy cfg'.apiKey) = true
    · simp [sendWhatsApp, hm]
    · have hm' : (strFalsy cfg'.phone || strFalsy cfg'.apiKey) = false :=
        Bool.eq_false_iff.2 hm
      simp [sendWhatsApp, hm', herr]
  · intro m hb
    simp [sendSummaryEndpoint, hb, sendWhatsApp, hmiss]
  · intro hb
    simp [sendSummaryEndpoint, hb]

/-- Witness for C7: with both configuration variables unset, dispatching
the concrete pending store's summary returns the preview undelivered. -/
theorem dispatcher_never_raises_w :
    (strFalsy (none : Option String) || strFalsy (none : Option String))
      = true
    ∧ sendWhatsApp { phone := none, apiKey := none } (fun x => x)
        (fun _ => .error ("network down")) ("hello") = (false, false) := by
  refine ⟨rfl, ?_⟩
  exact (dispatcher_never_raises { phone := none, apiKey := none }
    (fun x => x) (fun _ => .error ("network down")) ("hello")
    pendingStore (some ("2024-01-01")) "2024-01-02" (fun d => d) rfl).1

/-! ## C5: the daily summary -/

/-- Splitting the combined meat-and-ribs filter of the summary into the two
single-type sums. -/
theorem meat_ribs_split (l : List LineItem) :
    ((l.filter (fun i => i.type == "meat" || i.type == "ribs")).map
      (·.qty)).sum
      = ((l.filter (fun i => i.type == "meat")).map (·.qty)).sum
        + ((l.filter (fun i => i.type == "ribs")).map (·.qty)).sum := by
  induction l with
  | nil => simp
  | cons a t ih =>
    by_cases h1 : a.type = "meat"
    · have h2 : ¬ a.type = "ribs" := by rw [h1]; simp
      simp [List.filter_cons, h1, h2, ih]
      ring
    · by_cases h2 : a.type = "ribs"
      · simp [List.filter_cons, h1, h2, ih]
        ring
      · simp [List.filter_cons, h1, h2, ih]

/-- Sums of pointwise sums split. -/
theorem sum_map_add_split (l : List Order) (f g : Order → ℚ) :
    (l.map (fun o => f o + g o)).sum = (l.map f).sum + (l.map g).sum := by
  induction l with
  | nil => simp
  | cons a t ih =>
    simp [ih]
    ring

/-- A list of orders whose statuses are all `paid` or `pending` is
partitioned by the two status filters. -/
theorem length_filter_partition (l : List Order)
    (h : ∀ o ∈ l, o.status = "paid" ∨ o.status = "pending") :
    l.length = (l.filter (fun o => o.status == "paid")).length
      + (l.filter (fun o => o.status == "pending")).length := by
  induction l with
  | nil => rfl
  | cons a t ih =>
    have ht := fun o ho => h o (List.mem_cons_of_mem a ho)
    rcases h a (List.mem_cons_self a t) with ha | ha <;>
      · simp [List.filter_cons, ha, ih ht]
        omega

/-- Members of the day's order list are dated `d` and not cancelled. -/
theorem dailyOrders_mem {s : Store} {d : String} {o : Order}
    (h : o ∈ dailyOrders s d) :
    o ∈ s.orders ∧ o.order_date = d ∧ o.status ≠ "cancelled" := by
  rw [dailyOrders] at h
  have hm := List.mem_filter.1 h
  refine ⟨hm.1, ?_, ?_⟩ <;>
    · have := hm.2
      simp only [Bool.and_eq_true, beq_iff_eq, Bool.not_eq_true',
        beq_eq_false_iff_ne] at this
      tauto

/-- **C5.** For every date `d` and store, the summary builder returns the
no-orders sentinel `none` iff no order with `order_date = d` and status
other than `cancelled` exists; under the data model's status enum the
paid/pending counts partition the day's orders; and otherwise the built
text is exactly: the header lines, the order count, the paid count, a
pending line present only when the pending count is positive, a meat line
(quantities of types `meat` and `ribs` combined, two decimal places,
omitted when zero), a chicken line (type `chicken`, whole units, omitted
when zero), and a revenue line formatted with two decimals, a decimal
comma and the `R$` prefix, whose amount sums `total` over the day's `paid`
orders only. -/
theorem daily_summary_contract (s : Store) (d todayStr : String)
    (fmtDateBR : String → String) (hd : d ≠ "")
    (hst : ∀ o ∈ s.orders, validStatus o.status) :
    (buildDailySummary s (some d) todayStr fmtDateBR = none ↔
      dailyOrders s d = [])
    ∧ ((dailyOrders s d).length
        = ((dailyOrders s d).filter (fun o => o.status == "paid")).length
          + ((dailyOrders s d).filter (fun o => o.status == "pending")).length)
    ∧ (dailyOrders s d ≠ [] →
        buildDailySummary s (some d) todayStr fmtDateBR
          = some (String.intercalate ("\n") (List.filterMap id [
              some ("🥩 *Biazzi Empório da Carne*"),
              some ("📅 Resumo de " ++ fmtDateBR d),
              some (""),
              some ("📦 *Pedidos*"),
              some ("  • Total: " ++ toString (dailyOrders s d).length),
              some ("  • Pagos: "
                ++ toString ((dailyOrders s d).filter
                    (fun o => o.status == "paid")).length),
              (if ((dailyOrders s d).filter
                    (fun o => o.status == "pending")).length > 0 then
                some ("  • Pendentes: "
                  ++ toString ((dailyOrders s d).filter
                      (fun o => o.status == "pending")).length)
              else none),
              some (""),
              some ("🍖 *Produtos Vendidos*"),
              (if specMeatQty s d > 0 then
                some ("  • 🥩 Carne & Costela: "
                  ++ toFixed (specMeatQty s d) 2 ++ " kg")
              else none),
              (if specChickenQty s d > 0 then
                some ("  • 🍗 Frango Assado: "
                  ++ toFixed (specChickenQty s d) 0 ++ " unidades")
              else none),
              some (""),
              some ("💰 *Receita do Dia: " ++ fmtBRL (specDailyRevenue s d)
                ++ "*"),
              some (""),
              some ("_Enviado automaticamente pelo app Biazzi_")]))) := by
  have hdb : (d == "") = false := by
    simp [hd]
  have hmeat :
      ((dailyOrders s d).map (fun o =>
        ((o.items.filter (fun i => i.type == "meat" || i.type == "ribs")).map
          (·.qty)).sum)).sum = specMeatQty s d := by
    rw [specMeatQty, ← sum_map_add_split]
    exact congrArg List.sum
      (List.map_congr_left fun o _ => meat_ribs_split o.items)
  have hrev :
      (((dailyOrders s d).filter (fun o => o.status == "paid")).map
        (·.total)).sum = specDailyRevenue s d := by
    rw [specDailyRevenue]
    exact sum_map_filter_toIte (dailyOrders s d) (fun o => o.status = "paid")
      (fun o => o.status == "paid") (fun o => by simp) (·.total)
  have hchick :
      ((dailyOrders s d).map (fun o =>
        ((o.items.filter (fun i => i.type == "chicken")).map (·.qty)).sum)).sum
        = specChickenQty s d := rfl
  refine ⟨?_, ?_, ?_⟩
  · simp only [buildDailySummary, hdb, Bool.false_eq_true, if_false]
    by_cases he : (dailyOrders s d).isEmpty = true
    · simp only [he, if_true]
      simp only [List.isEmpty_iff] at he
      simp [he]
    · have he' : (dailyOrders s d).isEmpty = false := Bool.eq_false_iff.2 he
      simp only [he', Bool.false_eq_true, if_false]
      simp only [List.isEmpty_iff] at he
      simp [he]
  · refine length_filter_partition (dailyOrders s d) ?_
    intro o ho
    obtain ⟨hmem, _, hnc⟩ := dailyOrders_mem ho
    rcases hst o hmem with h | h | h
    · exact Or.inr h
    · exact Or.inl h
    · exact absurd h hnc
  · intro hne
    have he' : (dailyOrders s d).isEmpty = false := by
      simp [List.isEmpty_iff, hne]
    simp only [buildDailySummary, hdb, Bool.false_eq_true, if_false, he']
    rw [hmeat, hrev, hchick]

/-- Witness for C5: the hypotheses hold for the concrete pending store and
a concrete date, and the day's one pending order is partitioned by the two
status filters. -/
theorem daily_summary_contract_w :
    ("2024-01-01" : String) ≠ ""
    ∧ (∀ o ∈ pendingStore.orders, validStatus o.status)
    ∧ (dailyOrders pendingStore "2024-01-01").length
        = ((dailyOrders pendingStore "2024-01-01").filter
            (fun o => o.status == "paid")).length
          + ((dailyOrders pendingStore "2024-01-01").filter
              (fun o => o.status == "pending")).length := by
  have hd : ("2024-01-01" : String) ≠ "" := by
    simp
  have hst : ∀ o ∈ pendingStore.orders, validStatus o.status := by
    intro o ho
    simp only [pendingStore] at ho
    rcases List.mem_singleton.1 ho with rfl
    exact Or.inl rfl
  exact ⟨hd, hst, (daily_summary_contract pendingStore "2024-01-01" "x"
    (fun z => z) hd hst).2.1⟩
